import Mathlib

/-!
Verification development for the LicenseToolServer repository.

The repository ships an admin frontend (React), a client SDK description and
design documents; the license-activation core itself (KeyGenerator,
FingerprintCanonicalizer, LicenseStore, ActivationEngine, AdminControl) is
specified in spec.md but its server sources are not part of the tree, so the
core is modelled here from the spec.  The admin UI page `LicenseDetail.tsx`
is embedded from its actual source.
-/

namespace LicenseCore

/-- Modelled from the spec: license lifecycle states (spec section 3). -/
inductive Status where
  | inactive
  | active
  | revoked
deriving DecidableEq, Repr

/-- Modelled from the spec: the License record of the data model (spec section 3). -/
structure License where
  id : Nat
  key : String
  status : Status
  boundDeviceHash : Option String
  createdAt : Nat
  updatedAt : Nat
deriving DecidableEq, Repr

/-- Modelled from the spec: the Device record of the data model (spec section 3). -/
structure Device where
  deviceHash : String
  activatedAt : Nat
deriving DecidableEq, Repr

/-- Modelled from the spec: the persistent state held by LicenseStore. -/
structure Store where
  licenses : List License
  devices : List Device
deriving DecidableEq, Repr

/-- Modelled from the spec: the error taxonomy (spec section 7). -/
inductive LicenseError where
  | invalidLicense
  | licenseAlreadyActive
  | licenseRevoked
  | deviceMismatch
  | insufficientFingerprint
  | keyGenerationExhausted
deriving DecidableEq, Repr

/-- Modelled from the spec: transition of a record to active bound to a device. -/
def bindRecord (l : License) (d : String) (now : Nat) : License :=
  { l with status := Status.active, boundDeviceHash := some d, updatedAt := now }

/-- Modelled from the spec: transition of a record to inactive with binding cleared. -/
def unbindRecord (l : License) (now : Nat) : License :=
  { l with status := Status.inactive, boundDeviceHash := none, updatedAt := now }

/-- Modelled from the spec: transition of a record to revoked with binding cleared. -/
def revokeRecord (l : License) (now : Nat) : License :=
  { l with status := Status.revoked, boundDeviceHash := none, updatedAt := now }

namespace LicenseStore

/-- Modelled from the spec: LicenseStore.get(key), lookup of a license by key. -/
def get (s : Store) (k : String) : Option License :=
  s.licenses.find? (fun l => l.key == k)

/-- Modelled from the spec: replacing the record of a given license id in the store. -/
def updateLicense (s : Store) (licenseId : Nat) (f : License → License) : Store :=
  { s with licenses := s.licenses.map (fun l => if l.id = licenseId then f l else l) }

/-- Modelled from the spec: the atomic compare-and-set tryBind of LicenseStore
(spec section 4.3): it transitions the record to active with the given device
hash only if the current status still equals expectedStatus, and otherwise
fails without side effects and returns the current record. -/
def tryBind (s : Store) (licenseId : Nat) (deviceHash : String) (expectedStatus : Status)
    (now : Nat) : Option (Bool × License × Store) :=
  match s.licenses.find? (fun l => l.id == licenseId) with
  | none => none
  | some l =>
    if l.status = expectedStatus then
      some (true, bindRecord l deviceHash now,
        updateLicense s licenseId (fun l0 => bindRecord l0 deviceHash now))
    else
      some (false, l, s)

end LicenseStore

namespace ActivationEngine

/-- Modelled from the spec: ActivationEngine.activate(key, deviceHash)
(spec section 4.4): unknown key fails, revoked fails, active is an idempotent
no-op for the bound device and a conflict otherwise, inactive goes through the
atomic tryBind; on a lost race the current record is re-read and step 3
is re-applied.  A successful bind also creates the Device record. -/
def activate (s : Store) (key deviceHash : String) (now : Nat) :
    Except LicenseError (License × Store) :=
  match LicenseStore.get s key with
  | none => .error .invalidLicense
  | some l =>
    match l.status with
    | .revoked => .error .licenseRevoked
    | .active =>
      if l.boundDeviceHash = some deviceHash then .ok (l, s)
      else .error .licenseAlreadyActive
    | .inactive =>
      match LicenseStore.tryBind s l.id deviceHash Status.inactive now with
      | none => .error .invalidLicense
      | some (bound, current, s1) =>
        if bound then
          .ok (current, { s1 with devices := ⟨deviceHash, now⟩ :: s1.devices })
        else
          if current.boundDeviceHash = some deviceHash then .ok (current, s)
          else .error .licenseAlreadyActive

/-- Modelled from the spec: ActivationEngine.deactivate(key, deviceHash)
(spec section 4.4): unknown key fails with InvalidLicenseError; a license that
is not active or bound to a different device fails with DeviceMismatchError;
otherwise the license goes active to inactive, the binding is cleared and the
Device record is removed. -/
def deactivate (s : Store) (key deviceHash : String) (now : Nat) :
    Except LicenseError (License × Store) :=
  match LicenseStore.get s key with
  | none => .error .invalidLicense
  | some l =>
    if l.status = Status.active ∧ l.boundDeviceHash = some deviceHash then
      .ok (unbindRecord l now,
        { licenses := (LicenseStore.updateLicense s l.id (fun l0 => unbindRecord l0 now)).licenses,
          devices := s.devices.filter (fun dv => decide (dv.deviceHash ≠ deviceHash)) })
    else .error .deviceMismatch

/-- Modelled from the spec: the reason component of a validation result. -/
inductive Reason where
  | not_found
  | revoked
  | inactive
  | device_mismatch
deriving DecidableEq, Repr

/-- Modelled from the spec: the structured result of validate. -/
structure ValidationResult where
  valid : Bool
  reason : Option Reason
deriving DecidableEq, Repr

/-- Modelled from the spec: ActivationEngine.validate(key, deviceHash)
(spec section 4.4): read-only, valid iff the license is active and bound to
the given device, and in every other case valid is false with one specific
reason; it returns a structured result and never throws. -/
def validate (s : Store) (key deviceHash : String) : ValidationResult :=
  match LicenseStore.get s key with
  | none => ⟨false, some Reason.not_found⟩
  | some l =>
    match l.status with
    | .revoked => ⟨false, some Reason.revoked⟩
    | .inactive => ⟨false, some Reason.inactive⟩
    | .active =>
      if l.boundDeviceHash = some deviceHash then ⟨true, none⟩
      else ⟨false, some Reason.device_mismatch⟩

/-- Modelled from the spec: ActivationEngine.revoke(key) (spec section 4.4):
from inactive or active the license becomes revoked with any binding cleared;
from revoked it is an idempotent no-op. -/
def revoke (s : Store) (key : String) (now : Nat) :
    Except LicenseError (License × Store) :=
  match LicenseStore.get s key with
  | none => .error .invalidLicense
  | some l =>
    match l.status with
    | .revoked => .ok (l, s)
    | _ => .ok (revokeRecord l now, LicenseStore.updateLicense s l.id (fun l0 => revokeRecord l0 now))

end ActivationEngine

namespace AdminControl

/-- Modelled from the spec: AdminControl.issue() (spec section 4.5): persists a
fresh inactive record with no binding under the generated key. -/
def issue (s : Store) (key : String) (licenseId now : Nat) : License × Store :=
  let l : License :=
    { id := licenseId, key := key, status := Status.inactive, boundDeviceHash := none,
      createdAt := now, updatedAt := now }
  (l, { s with licenses := l :: s.licenses })

end AdminControl

namespace KeyGenerator

/-- Modelled from the spec: the effective alphabet of key characters, the
uppercase alphanumeric characters (spec sections 4.1 and 6). -/
def alphabet : List Char :=
  ['A', 'B', 'C', 'D', 'E', 'F', 'G', 'H', 'I', 'J', 'K', 'L', 'M',
   'N', 'O', 'P', 'Q', 'R', 'S', 'T', 'U', 'V', 'W', 'X', 'Y', 'Z',
   '0', '1', '2', '3', '4', '5', '6', '7', '8', '9']

/-- Modelled from the spec: one key character drawn from the alphabet. -/
def keyChar (i : Fin 36) : Char := alphabet.getD i.val 'A'

/-- Membership test for a key character. -/
def isKeyChar (ch : Char) : Bool := alphabet.contains ch

/-- Modelled from the spec: the 19 characters of a generated key, sixteen
random draws grouped as four blocks of four separated by hyphens
(spec section 4.1).  The argument stands for the cryptographically secure
random source. -/
def generateChars (r : Fin 16 → Fin 36) : List Char :=
  [keyChar (r 0), keyChar (r 1), keyChar (r 2), keyChar (r 3), '-',
   keyChar (r 4), keyChar (r 5), keyChar (r 6), keyChar (r 7), '-',
   keyChar (r 8), keyChar (r 9), keyChar (r 10), keyChar (r 11), '-',
   keyChar (r 12), keyChar (r 13), keyChar (r 14), keyChar (r 15)]

/-- Modelled from the spec: KeyGenerator.generate() producing a key string. -/
def generate (r : Fin 16 → Fin 36) : String := String.mk (generateChars r)

/-- Checker for the public key format XXXX-XXXX-XXXX-XXXX over the characters:
exactly four blocks of four uppercase alphanumeric characters separated by
single hyphens. -/
def checkKeyChars : List Char → Bool
  | [a0, a1, a2, a3, '-', b0, b1, b2, b3, '-', c0, c1, c2, c3, '-', e0, e1, e2, e3] =>
    isKeyChar a0 && isKeyChar a1 && isKeyChar a2 && isKeyChar a3 &&
    isKeyChar b0 && isKeyChar b1 && isKeyChar b2 && isKeyChar b3 &&
    isKeyChar c0 && isKeyChar c1 && isKeyChar c2 && isKeyChar c3 &&
    isKeyChar e0 && isKeyChar e1 && isKeyChar e2 && isKeyChar e3
  | _ => false

/-- Checker for the public key format on a string. -/
def keyFormatValid (s : String) : Bool := checkKeyChars s.toList

/-- Modelled from the spec: acceptance of a generated key into LicenseStore
under the uniqueness constraint (spec section 4.1): a duplicate is rejected. -/
def insertKey (accepted : List String) (k : String) : Option (List String) :=
  if accepted.contains k then none else some (k :: accepted)

/-- Modelled from the spec: any number of key acceptances in sequence, keeping
only the keys the uniqueness constraint lets through. -/
def insertKeys (accepted : List String) : List String → List String
  | [] => accepted
  | k :: ks =>
    match insertKey accepted k with
    | none => insertKeys accepted ks
    | some a2 => insertKeys a2 ks

end KeyGenerator

namespace FingerprintCanonicalizer

/-- Modelled from the spec: the raw hardware signals of a device fingerprint
(spec section 4.2): CPU identifier, disk serial, motherboard identifier and
MAC address; an empty string stands for an absent signal. -/
structure RawSignals where
  cpuId : String
  diskSerial : String
  motherboardId : String
  macAddress : String
deriving DecidableEq, Repr

/-- Modelled from the spec: concatenation of the signals in the fixed,
documented order. -/
def concatSignals (rs : RawSignals) : String :=
  rs.cpuId ++ rs.diskSerial ++ rs.motherboardId ++ rs.macAddress

/-- Modelled from the spec: presence of at least one non-empty signal. -/
def hasNonEmptySignal (rs : RawSignals) : Bool :=
  !rs.cpuId.isEmpty || !rs.diskSerial.isEmpty ||
  !rs.motherboardId.isEmpty || !rs.macAddress.isEmpty

/-- Modelled from the spec: FingerprintCanonicalizer.canonicalize(rawSignals)
(spec section 4.2): at least one non-empty signal is required, else the call
fails with InsufficientFingerprintError; otherwise the signals concatenated in
the fixed order are passed through the one-way cryptographic hash, which the
first argument stands for. -/
def canonicalize (hash : String → String) (rs : RawSignals) : Except LicenseError String :=
  if hasNonEmptySignal rs then .ok (hash (concatSignals rs))
  else .error .insufficientFingerprint

end FingerprintCanonicalizer

end LicenseCore

namespace AdminUI

/-- License status as used by the admin frontend, from the union type in
src/frontend/src/api/licenses.ts. -/
inductive UiStatus where
  | inactive
  | active
  | revoked
deriving DecidableEq, Repr

/-- Device interface of src/frontend/src/api/licenses.ts. -/
structure Device where
  id : Nat
  device_id : String
  activated_at : String
deriving DecidableEq, Repr

/-- License interface of src/frontend/src/api/licenses.ts. -/
structure License where
  id : Nat
  key : String
  status : UiStatus
  created_at : String
  updated_at : String
  device : Option Device
deriving DecidableEq, Repr

/-- Component state of the LicenseDetail page relevant to revocation, from
the useState hooks of src/frontend/src/pages/LicenseDetail.tsx. -/
structure DetailState where
  license : Option License
  error : Option String
  revoking : Bool
deriving DecidableEq, Repr

/-- The handleRevoke handler of src/frontend/src/pages/LicenseDetail.tsx:
nothing happens without a loaded license and a confirmed dialog; on a
successful request the license state is replaced by a copy with status
revoked and the device field cleared; on a failed request only the error
message is set; either way the revoking flag ends false. -/
def handleRevoke (s : DetailState) (confirmed requestOk : Bool) : DetailState :=
  match s.license with
  | none => s
  | some lic =>
    if confirmed then
      if requestOk then
        { s with
          license := some { lic with status := UiStatus.revoked, device := none },
          revoking := false }
      else
        { s with error := some "Failed to revoke license", revoking := false }
    else s

/-- The render guard of the Revoke License button in
src/frontend/src/pages/LicenseDetail.tsx (the condition
on the license status around the button element). -/
def rendersRevokeControl (lic : License) : Bool :=
  decide (lic.status ≠ UiStatus.revoked)

/-- Whether the loaded page offers any way to issue a revoke request: the
button is the only caller of handleRevoke, so the page can revoke exactly
when the button is rendered. -/
def pageCanRevoke (s : DetailState) : Bool :=
  match s.license with
  | none => false
  | some lic => rendersRevokeControl lic

end AdminUI

namespace LicenseCore

namespace ConcurrentActivation

/-- Modelled from the spec: progress of one in-flight activate call in the
two-phase algorithm of spec section 4.4: before the initial read, between the
read of an inactive record and the atomic tryBind, finished successfully, or
finished with an error. -/
inductive Phase where
  | start
  | pending
  | ok
  | err (e : LicenseError)
deriving DecidableEq, Repr

/-- Modelled from the spec: the shared license record together with the
progress of n concurrent activate calls. -/
structure CState (n : Nat) where
  status : Status
  bound : Option String
  phase : Fin n → Phase

/-- Modelled from the spec: one atomic step of caller i of activate against
the shared record, with d giving each caller's device hash.  A caller at start
performs the read of steps 1 to 3 of spec section 4.4; a caller that read an
inactive record performs the atomic compare-and-set tryBind, and on a lost
race re-reads and applies step 3 against the now-current record. -/
def activateStep {n : Nat} (d : Fin n → String) (c : CState n) (i : Fin n) : CState n :=
  match c.phase i with
  | .start =>
    match c.status with
    | .revoked => { c with phase := Function.update c.phase i (Phase.err .licenseRevoked) }
    | .active =>
      if c.bound = some (d i) then { c with phase := Function.update c.phase i Phase.ok }
      else { c with phase := Function.update c.phase i (Phase.err .licenseAlreadyActive) }
    | .inactive => { c with phase := Function.update c.phase i Phase.pending }
  | .pending =>
    if c.status = Status.inactive then
      { status := Status.active, bound := some (d i),
        phase := Function.update c.phase i Phase.ok }
    else
      if c.bound = some (d i) then { c with phase := Function.update c.phase i Phase.ok }
      else { c with phase := Function.update c.phase i (Phase.err .licenseAlreadyActive) }
  | .ok => c
  | .err _ => c

/-- Modelled from the spec: an interleaved execution, running the callers in
the order the schedule names them. -/
def runSched {n : Nat} (d : Fin n → String) (c : CState n) (sched : List (Fin n)) : CState n :=
  sched.foldl (activateStep d) c

/-- A caller that has finished, successfully or with an error. -/
def Phase.done : Phase → Bool
  | .ok => true
  | .err _ => true
  | _ => false

/-- Modelled from the spec: the initial state of the race scenario, one
inactive unbound license and every caller before its first read. -/
def initState (n : Nat) : CState n :=
  { status := Status.inactive, bound := none, phase := fun _ => Phase.start }

/-- Execution invariant of the race: either nobody has reached the
compare-and-set yet and the license is still inactive and unbound, or exactly
one caller has won, the license is active and bound to the winner's hash, and
every other caller is unfinished or has failed with LicenseAlreadyActiveError. -/
def RaceInv {n : Nat} (d : Fin n → String) (c : CState n) : Prop :=
  (c.status = Status.inactive ∧ c.bound = none ∧
    ∀ j, c.phase j = Phase.start ∨ c.phase j = Phase.pending) ∨
  (∃ i, c.status = Status.active ∧ c.bound = some (d i) ∧ c.phase i = Phase.ok ∧
    ∀ j, j ≠ i → (c.phase j = Phase.start ∨ c.phase j = Phase.pending ∨
      c.phase j = Phase.err LicenseError.licenseAlreadyActive))

end ConcurrentActivation

/-- Modelled from the spec: the data-model invariant of spec section 3 for one
record, the binding is present exactly on an active license. -/
def BindingInv (l : License) : Prop :=
  l.boundDeviceHash.isSome = true ↔ l.status = Status.active

/-- The binding invariant for every record of the store. -/
def StoreInv (s : Store) : Prop := ∀ l ∈ s.licenses, BindingInv l

/-- Modelled from the spec: the operations a device client can issue
(spec section 4.4), used to quantify over call sequences. -/
inductive ClientOp where
  | act (k d : String) (now : Nat)
  | deact (k d : String) (now : Nat)

/-- The store after one client call, which is unchanged when the call errors. -/
def applyClientOp (s : Store) : ClientOp → Store
  | ClientOp.act k d now =>
    match ActivationEngine.activate s k d now with
    | .ok (_, s2) => s2
    | .error _ => s
  | ClientOp.deact k d now =>
    match ActivationEngine.deactivate s k d now with
    | .ok (_, s2) => s2
    | .error _ => s

/-- The store after a sequence of client calls. -/
def runClientOps (s : Store) (ops : List ClientOp) : Store :=
  ops.foldl applyClientOp s

/-- Fixture: a store holding one active license bound to device hash d1. -/
def sampleActiveStore : Store :=
  { licenses := [⟨1, "AAAA-BBBB-CCCC-DDDD", Status.active, some "d1", 0, 0⟩],
    devices := [⟨"d1", 0⟩] }

/-- Fixture: the license record of sampleActiveStore. -/
def sampleActiveLicense : License :=
  ⟨1, "AAAA-BBBB-CCCC-DDDD", Status.active, some "d1", 0, 0⟩

/-- Fixture: a store holding one inactive unbound license. -/
def sampleInactiveStore : Store :=
  { licenses := [⟨1, "AAAA-BBBB-CCCC-DDDD", Status.inactive, none, 0, 0⟩],
    devices := [] }

/-- Fixture: the license record of sampleInactiveStore. -/
def sampleInactiveLicense : License :=
  ⟨1, "AAAA-BBBB-CCCC-DDDD", Status.inactive, none, 0, 0⟩

/-- Fixture: a store holding one revoked license. -/
def sampleRevokedStore : Store :=
  { licenses := [⟨1, "AAAA-BBBB-CCCC-DDDD", Status.revoked, none, 0, 0⟩],
    devices := [] }

/-- Fixture: the license record of sampleRevokedStore. -/
def sampleRevokedLicense : License :=
  ⟨1, "AAAA-BBBB-CCCC-DDDD", Status.revoked, none, 0, 0⟩

/-- Fixture: two distinct device hashes for the race scenario. -/
def samplePairHashes : Fin 2 → String := fun i => if i = 0 then "h1" else "h2"

/-- Fixture: an interleaving in which both callers read before either binds. -/
def samplePairSched : List (Fin 2) := [0, 1, 0, 1]

/-- Fixture: all-empty raw fingerprint signals. -/
def sampleEmptySignals : FingerprintCanonicalizer.RawSignals := ⟨"", "", "", ""⟩

/-- Fixture: raw fingerprint signals with one non-empty entry. -/
def sampleSignals : FingerprintCanonicalizer.RawSignals := ⟨"cpu0", "", "", ""⟩

/-- Fixture: one concrete outcome of the random source for key generation. -/
def sampleDraw : Fin 16 → Fin 36 := fun i => ⟨(i.val * 7) % 36, by omega⟩

end LicenseCore

namespace AdminUI

/-- Fixture: a loaded license as displayed on the detail page. -/
def sampleUiLicense : License :=
  ⟨7, "AAAA-BBBB-CCCC-DDDD", UiStatus.active, "2026-01-01", "2026-01-02",
    some ⟨3, "dev-hash", "2026-01-02"⟩⟩

/-- Fixture: a revoked license as displayed on the detail page. -/
def sampleUiRevoked : License :=
  ⟨7, "AAAA-BBBB-CCCC-DDDD", UiStatus.revoked, "2026-01-01", "2026-01-02", none⟩

/-- Fixture: the page state with the sample license loaded. -/
def sampleUiState : DetailState := ⟨some sampleUiLicense, none, false⟩

/-- Fixture: the page state with the revoked sample license loaded. -/
def sampleUiRevokedState : DetailState := ⟨some sampleUiRevoked, none, false⟩

end AdminUI

namespace LicenseCore

lemma get_mem {s : Store} {k : String} {l : License}
    (h : LicenseStore.get s k = some l) : l ∈ s.licenses :=
  List.mem_of_find?_eq_some h

/-- C5: validate(k, d) is valid exactly when the license exists, is active and
is bound to d; otherwise it is invalid with the one reason matching the case
(not_found, revoked, inactive, device_mismatch).  It is a total function of
the store returning a structured result, so it neither throws nor mutates. -/
theorem validate_valid_iff_active_bound (s : Store) (k d : String) :
    ((ActivationEngine.validate s k d).valid = true ↔
      ∃ l, LicenseStore.get s k = some l ∧ l.status = Status.active ∧
        l.boundDeviceHash = some d) ∧
    (LicenseStore.get s k = none →
      ActivationEngine.validate s k d = ⟨false, some ActivationEngine.Reason.not_found⟩) ∧
    (∀ l, LicenseStore.get s k = some l → l.status = Status.revoked →
      ActivationEngine.validate s k d = ⟨false, some ActivationEngine.Reason.revoked⟩) ∧
    (∀ l, LicenseStore.get s k = some l → l.status = Status.inactive →
      ActivationEngine.validate s k d = ⟨false, some ActivationEngine.Reason.inactive⟩) ∧
    (∀ l, LicenseStore.get s k = some l → l.status = Status.active →
      l.boundDeviceHash ≠ some d →
      ActivationEngine.validate s k d = ⟨false, some ActivationEngine.Reason.device_mismatch⟩) := by
  refine ⟨⟨?_, ?_⟩, ?_, ?_, ?_, ?_⟩
  · intro hv
    cases hg : LicenseStore.get s k with
    | none => simp [ActivationEngine.validate, hg] at hv
    | some l =>
      cases hst : l.status with
      | revoked => simp [ActivationEngine.validate, hg, hst] at hv
      | inactive => simp [ActivationEngine.validate, hg, hst] at hv
      | active =>
        by_cases hb : l.boundDeviceHash = some d
        · exact ⟨l, rfl, hst, hb⟩
        · simp [ActivationEngine.validate, hg, hst, hb] at hv
  · rintro ⟨l, hg, hst, hb⟩
    simp [ActivationEngine.validate, hg, hst, hb]
  · intro hg
    simp [ActivationEngine.validate, hg]
  · intro l hg hst
    simp [ActivationEngine.validate, hg, hst]
  · intro l hg hst
    simp [ActivationEngine.validate, hg, hst]
  · intro l hg hst hb
    simp [ActivationEngine.validate, hg, hst, hb]

/-- Witness for C5 at concrete stores. -/
theorem validate_valid_iff_active_bound_witness :
    (ActivationEngine.validate sampleActiveStore "AAAA-BBBB-CCCC-DDDD" "d1").valid = true ∧
    ActivationEngine.validate sampleRevokedStore "AAAA-BBBB-CCCC-DDDD" "d1" =
      ⟨false, some ActivationEngine.Reason.revoked⟩ :=
  ⟨((validate_valid_iff_active_bound sampleActiveStore "AAAA-BBBB-CCCC-DDDD" "d1").1).2
      ⟨sampleActiveLicense, by decide, by decide, by decide⟩,
    ((validate_valid_iff_active_bound sampleRevokedStore
        "AAAA-BBBB-CCCC-DDDD" "d1").2.2.1) sampleRevokedLicense (by decide) (by decide)⟩

/-- C6: deactivate(k, d) fails with InvalidLicenseError on an unknown key,
fails with DeviceMismatchError (leaving the store untouched) when the license
is not active or bound to another device, and otherwise moves the license to
inactive with its binding cleared and removes the Device record. -/
theorem deactivate_spec (s : Store) (k d : String) (now : Nat) :
    (LicenseStore.get s k = none →
      ActivationEngine.deactivate s k d now = .error LicenseError.invalidLicense) ∧
    (∀ l, LicenseStore.get s k = some l →
      (l.status ≠ Status.active ∨ l.boundDeviceHash ≠ some d) →
      ActivationEngine.deactivate s k d now = .error LicenseError.deviceMismatch) ∧
    (∀ l, LicenseStore.get s k = some l → l.status = Status.active →
      l.boundDeviceHash = some d →
      (unbindRecord l now).status = Status.inactive ∧
      (unbindRecord l now).boundDeviceHash = none ∧
      (unbindRecord l now).id = l.id ∧ (unbindRecord l now).key = l.key ∧
      ActivationEngine.deactivate s k d now =
        .ok (unbindRecord l now,
          { licenses := s.licenses.map
              (fun l0 => if l0.id = l.id then unbindRecord l0 now else l0),
            devices := s.devices.filter (fun dv => decide (dv.deviceHash ≠ d)) })) := by
  refine ⟨?_, ?_, ?_⟩
  · intro hg
    simp [ActivationEngine.deactivate, hg]
  · intro l hg hmis
    have hcond : ¬(l.status = Status.active ∧ l.boundDeviceHash = some d) := by
      rcases hmis with h | h
      · exact fun hc => h hc.1
      · exact fun hc => h hc.2
    simp [ActivationEngine.deactivate, hg, hcond]
  · intro l hg hst hb
    refine ⟨rfl, rfl, rfl, rfl, ?_⟩
    simp [ActivationEngine.deactivate, hg, hst, hb, LicenseStore.updateLicense]

/-- Witness for C6 at a concrete store. -/
theorem deactivate_spec_witness :
    LicenseStore.get sampleActiveStore "AAAA-BBBB-CCCC-DDDD" = some sampleActiveLicense ∧
    ((unbindRecord sampleActiveLicense 9).status = Status.inactive ∧
      (unbindRecord sampleActiveLicense 9).boundDeviceHash = none ∧
      (unbindRecord sampleActiveLicense 9).id = sampleActiveLicense.id ∧
      (unbindRecord sampleActiveLicense 9).key = sampleActiveLicense.key ∧
      ActivationEngine.deactivate sampleActiveStore "AAAA-BBBB-CCCC-DDDD" "d1" 9 =
        .ok (unbindRecord sampleActiveLicense 9,
          { licenses := sampleActiveStore.licenses.map
              (fun l0 => if l0.id = sampleActiveLicense.id then unbindRecord l0 9 else l0),
            devices := sampleActiveStore.devices.filter
              (fun dv => decide (dv.deviceHash ≠ "d1")) })) :=
  ⟨by decide,
    (deactivate_spec sampleActiveStore "AAAA-BBBB-CCCC-DDDD" "d1" 9).2.2
      sampleActiveLicense (by decide) (by decide) (by decide)⟩

/-- C8: canonicalize is a deterministic function of the raw signals: equal
signal sets give equal hashes; with no non-empty signal it fails with
InsufficientFingerprintError, and otherwise it returns the hash of the
signals concatenated in the fixed order. -/
theorem canonicalize_deterministic (hash : String → String)
    (rs rs1 rs2 : FingerprintCanonicalizer.RawSignals)
    (hcpu : rs1.cpuId = rs2.cpuId) (hdisk : rs1.diskSerial = rs2.diskSerial)
    (hmb : rs1.motherboardId = rs2.motherboardId)
    (hmac : rs1.macAddress = rs2.macAddress) :
    FingerprintCanonicalizer.canonicalize hash rs1 =
      FingerprintCanonicalizer.canonicalize hash rs2 ∧
    (FingerprintCanonicalizer.hasNonEmptySignal rs = false →
      FingerprintCanonicalizer.canonicalize hash rs =
        .error LicenseError.insufficientFingerprint) ∧
    (FingerprintCanonicalizer.hasNonEmptySignal rs = true →
      FingerprintCanonicalizer.canonicalize hash rs =
        .ok (hash (FingerprintCanonicalizer.concatSignals rs))) := by
  have hrs : rs1 = rs2 := by
    cases rs1; cases rs2
    simp_all
  refine ⟨by rw [hrs], ?_, ?_⟩
  · intro hempty
    simp [FingerprintCanonicalizer.canonicalize, hempty]
  · intro hsome
    simp [FingerprintCanonicalizer.canonicalize, hsome]

/-- Witness for C8 at concrete signal sets. -/
theorem canonicalize_deterministic_witness :
    FingerprintCanonicalizer.canonicalize id sampleSignals =
      FingerprintCanonicalizer.canonicalize id sampleSignals ∧
    (FingerprintCanonicalizer.hasNonEmptySignal sampleEmptySignals = false →
      FingerprintCanonicalizer.canonicalize id sampleEmptySignals =
        .error LicenseError.insufficientFingerprint) ∧
    (FingerprintCanonicalizer.hasNonEmptySignal sampleEmptySignals = true →
      FingerprintCanonicalizer.canonicalize id sampleEmptySignals =
        .ok (id (FingerprintCanonicalizer.concatSignals sampleEmptySignals))) :=
  canonicalize_deterministic id sampleEmptySignals sampleSignals sampleSignals
    rfl rfl rfl rfl

lemma isKeyChar_keyChar :
    ∀ i : Fin 36, KeyGenerator.isKeyChar (KeyGenerator.keyChar i) = true := by decide

lemma insertKeys_nodup (ks : List String) :
    ∀ accepted : List String, accepted.Nodup → (KeyGenerator.insertKeys accepted ks).Nodup := by
  induction ks with
  | nil =>
    intro a h
    simpa [KeyGenerator.insertKeys] using h
  | cons k ks ih =>
    intro a h
    by_cases hm : k ∈ a
    · simpa [KeyGenerator.insertKeys, KeyGenerator.insertKey, hm] using ih a h
    · have h2 : (k :: a).Nodup := List.nodup_cons.mpr ⟨hm, h⟩
      simpa [KeyGenerator.insertKeys, KeyGenerator.insertKey, hm] using ih _ h2

/-- C7: every generated key has the public format XXXX-XXXX-XXXX-XXXX, four
blocks of four uppercase alphanumeric characters separated by hyphens, for
every outcome of the random source; and the set of keys accepted into the
store under the uniqueness constraint never holds a duplicate. -/
theorem keygen_format_and_unique :
    (∀ r : Fin 16 → Fin 36, KeyGenerator.keyFormatValid (KeyGenerator.generate r) = true) ∧
    (∀ accepted ks : List String, accepted.Nodup →
      (KeyGenerator.insertKeys accepted ks).Nodup) := by
  constructor
  · intro r
    show KeyGenerator.checkKeyChars (KeyGenerator.generateChars r) = true
    simp [KeyGenerator.generateChars, KeyGenerator.checkKeyChars, isKeyChar_keyChar]
  · intro accepted ks h
    exact insertKeys_nodup ks accepted h

/-- Witness for C7 at a concrete draw and a concrete key sequence with a
duplicate offered. -/
theorem keygen_format_and_unique_witness :
    KeyGenerator.keyFormatValid (KeyGenerator.generate sampleDraw) = true ∧
    (List.Nodup ([] : List String) ∧
      (KeyGenerator.insertKeys [] ["K1", "K1", "K2"]).Nodup) :=
  ⟨keygen_format_and_unique.1 sampleDraw,
    ⟨by decide, keygen_format_and_unique.2 [] ["K1", "K1", "K2"] (by decide)⟩⟩

lemma bindingInv_bindRecord (l : License) (d : String) (now : Nat) :
    BindingInv (bindRecord l d now) := by
  simp [BindingInv, bindRecord]

lemma bindingInv_unbindRecord (l : License) (now : Nat) :
    BindingInv (unbindRecord l now) := by
  simp [BindingInv, unbindRecord]

lemma bindingInv_revokeRecord (l : License) (now : Nat) :
    BindingInv (revokeRecord l now) := by
  simp [BindingInv, revokeRecord]

lemma bindingInv_mapped {ls : List License} (lid : Nat) {f : License → License}
    (hs : ∀ l ∈ ls, BindingInv l) (hf : ∀ l, BindingInv (f l)) :
    ∀ l2 ∈ ls.map (fun l => if l.id = lid then f l else l), BindingInv l2 := by
  intro l2 hl2
  rcases List.mem_map.1 hl2 with ⟨l0, hl0, rfl⟩
  by_cases h : l0.id = lid
  · simpa [h] using hf l0
  · simpa [h] using hs l0 hl0

/-- C2: the binding invariant (boundDeviceHash present iff status is active)
holds of the record issue creates, and every operation of the core preserves
it across the store; activate, deactivate and revoke in addition return a
record satisfying it. -/
theorem core_preserves_binding_invariant (s : Store) :
    (∀ k lid now, (AdminControl.issue s k lid now).1.status = Status.inactive ∧
      (AdminControl.issue s k lid now).1.boundDeviceHash = none) ∧
    (∀ k lid now, StoreInv s → StoreInv (AdminControl.issue s k lid now).2) ∧
    (∀ k d now l2 s2, StoreInv s → ActivationEngine.activate s k d now = .ok (l2, s2) →
      StoreInv s2 ∧ BindingInv l2) ∧
    (∀ k d now l2 s2, StoreInv s → ActivationEngine.deactivate s k d now = .ok (l2, s2) →
      StoreInv s2 ∧ BindingInv l2) ∧
    (∀ k now l2 s2, StoreInv s → ActivationEngine.revoke s k now = .ok (l2, s2) →
      StoreInv s2 ∧ BindingInv l2) := by
  refine ⟨?_, ?_, ?_, ?_, ?_⟩
  · intro k lid now
    exact ⟨rfl, rfl⟩
  · intro k lid now hs
    intro l2 hl2
    rcases List.mem_cons.1 hl2 with h | h
    · subst h
      simp [BindingInv]
    · exact hs l2 h
  · intro k d now l2 s2 hs hact
    cases hg : LicenseStore.get s k with
    | none => simp [ActivationEngine.activate, hg] at hact
    | some l =>
      cases hst : l.status with
      | revoked => simp [ActivationEngine.activate, hg, hst] at hact
      | active =>
        by_cases hb : l.boundDeviceHash = some d
        · simp [ActivationEngine.activate, hg, hst, hb] at hact
          rcases hact with ⟨rfl, rfl⟩
          exact ⟨hs, hs l (get_mem hg)⟩
        · simp [ActivationEngine.activate, hg, hst, hb] at hact
      | inactive =>
        cases hfind : s.licenses.find? (fun l0 => l0.id == l.id) with
        | none =>
          simp [ActivationEngine.activate, hg, hst, LicenseStore.tryBind, hfind] at hact
        | some lf =>
          by_cases h2 : lf.status = Status.inactive
          · simp [ActivationEngine.activate, hg, hst, LicenseStore.tryBind, hfind, h2] at hact
            rcases hact with ⟨rfl, rfl⟩
            refine ⟨?_, bindingInv_bindRecord lf d now⟩
            intro l3 hl3
            exact bindingInv_mapped l.id hs (fun l0 => bindingInv_bindRecord l0 d now) l3 hl3
          · by_cases hb2 : lf.boundDeviceHash = some d
            · simp [ActivationEngine.activate, hg, hst, LicenseStore.tryBind, hfind, h2,
                hb2] at hact
              rcases hact with ⟨rfl, rfl⟩
              exact ⟨hs, hs lf (List.mem_of_find?_eq_some hfind)⟩
            · simp [ActivationEngine.activate, hg, hst, LicenseStore.tryBind, hfind, h2,
                hb2] at hact
  · intro k d now l2 s2 hs hact
    cases hg : LicenseStore.get s k with
    | none => simp [ActivationEngine.deactivate, hg] at hact
    | some l =>
      by_cases hcond : l.status = Status.active ∧ l.boundDeviceHash = some d
      · simp [ActivationEngine.deactivate, hg, hcond] at hact
        rcases hact with ⟨rfl, rfl⟩
        refine ⟨?_, bindingInv_unbindRecord l now⟩
        intro l3 hl3
        exact bindingInv_mapped l.id hs (fun l0 => bindingInv_unbindRecord l0 now) l3 hl3
      · simp [ActivationEngine.deactivate, hg, hcond] at hact
  · intro k now l2 s2 hs hact
    cases hg : LicenseStore.get s k with
    | none => simp [ActivationEngine.revoke, hg] at hact
    | some l =>
      cases hst : l.status with
      | revoked =>
        simp [ActivationEngine.revoke, hg, hst] at hact
        rcases hact with ⟨rfl, rfl⟩
        exact ⟨hs, hs l (get_mem hg)⟩
      | active =>
        simp [ActivationEngine.revoke, hg, hst] at hact
        rcases hact with ⟨rfl, rfl⟩
        refine ⟨?_, bindingInv_revokeRecord l now⟩
        intro l3 hl3
        exact bindingInv_mapped l.id hs (fun l0 => bindingInv_revokeRecord l0 now) l3 hl3
      | inactive =>
        simp [ActivationEngine.revoke, hg, hst] at hact
        rcases hact with ⟨rfl, rfl⟩
        refine ⟨?_, bindingInv_revokeRecord l now⟩
        intro l3 hl3
        exact bindingInv_mapped l.id hs (fun l0 => bindingInv_revokeRecord l0 now) l3 hl3

/-- Witness for C2 at a concrete store: a successful activation from the
inactive sample store preserves the invariant. -/
theorem core_preserves_binding_invariant_witness :
    (AdminControl.issue sampleInactiveStore "K" 2 0).1.status = Status.inactive ∧
    (StoreInv (Store.mk [⟨1, "AAAA-BBBB-CCCC-DDDD", Status.active, some "d1", 0, 5⟩]
        [⟨"d1", 5⟩]) ∧
      BindingInv ⟨1, "AAAA-BBBB-CCCC-DDDD", Status.active, some "d1", 0, 5⟩) :=
  ⟨((core_preserves_binding_invariant sampleInactiveStore).1 "K" 2 0).1,
    (core_preserves_binding_invariant sampleInactiveStore).2.2.1
      "AAAA-BBBB-CCCC-DDDD" "d1" 5
      ⟨1, "AAAA-BBBB-CCCC-DDDD", Status.active, some "d1", 0, 5⟩
      (Store.mk [⟨1, "AAAA-BBBB-CCCC-DDDD", Status.active, some "d1", 0, 5⟩] [⟨"d1", 5⟩])
      (by
        intro l hl
        simp [sampleInactiveStore] at hl
        subst hl
        simp [BindingInv])
      rfl⟩

lemma find?_key_map (ls : List License) (k : String) (g : License → License)
    (hg : ∀ l, (g l).key = l.key) :
    (ls.map g).find? (fun l => l.key == k) = (ls.find? (fun l => l.key == k)).map g := by
  induction ls with
  | nil => simp
  | cons a ls ih =>
    by_cases h : a.key = k
    · simp [List.find?_cons, hg, h]
    · simp [List.find?_cons, hg, h, ih]

lemma find?_id_nodup {ls : List License} {l : License}
    (hn : (ls.map License.id).Nodup) (hl : l ∈ ls) :
    ls.find? (fun l0 => l0.id == l.id) = some l := by
  have hsome : (ls.find? (fun l0 => l0.id == l.id)).isSome := by
    rw [List.find?_isSome]
    exact ⟨l, hl, by simp⟩
  rcases Option.isSome_iff_exists.1 hsome with ⟨l2, hl2⟩
  have hmem : l2 ∈ ls := List.mem_of_find?_eq_some hl2
  have hid : l2.id = l.id := by
    have hp := List.find?_some hl2
    simpa using hp
  have heq : l2 = l := List.inj_on_of_nodup_map hn hmem hl hid
  rw [hl2, heq]

/-- C3: activate is idempotent for the bound device: on a license that is
active and bound to d, activate(k, d) succeeds and returns the record and the
store unchanged; and (under distinct license ids) running activate(k, d)
again after any successful activate(k, d) reproduces exactly the same
successful result. -/
theorem activate_idempotent (s : Store) (k d : String) (now : Nat) (l : License)
    (hget : LicenseStore.get s k = some l) (hact : l.status = Status.active)
    (hbd : l.boundDeviceHash = some d) :
    ActivationEngine.activate s k d now = .ok (l, s) ∧
    (∀ s0 n1 n2 l1 s1, (s0.licenses.map License.id).Nodup →
      ActivationEngine.activate s0 k d n1 = .ok (l1, s1) →
      ActivationEngine.activate s1 k d n2 = .ok (l1, s1)) := by
  constructor
  · simp [ActivationEngine.activate, hget, hact, hbd]
  · intro s0 n1 n2 l1 s1 hn h1
    cases hg : LicenseStore.get s0 k with
    | none => simp [ActivationEngine.activate, hg] at h1
    | some l0 =>
      cases hst : l0.status with
      | revoked => simp [ActivationEngine.activate, hg, hst] at h1
      | active =>
        by_cases hb : l0.boundDeviceHash = some d
        · simp [ActivationEngine.activate, hg, hst, hb] at h1
          rcases h1 with ⟨rfl, rfl⟩
          simp [ActivationEngine.activate, hg, hst, hb]
        · simp [ActivationEngine.activate, hg, hst, hb] at h1
      | inactive =>
        have hfind : s0.licenses.find? (fun l2 => l2.id == l0.id) = some l0 :=
          find?_id_nodup hn (get_mem hg)
        simp [ActivationEngine.activate, hg, hst, LicenseStore.tryBind, hfind] at h1
        rcases h1 with ⟨rfl, rfl⟩
        have hget1 : LicenseStore.get
            { licenses := (LicenseStore.updateLicense s0 l0.id
                (fun x => bindRecord x d n1)).licenses,
              devices := ⟨d, n1⟩ :: (LicenseStore.updateLicense s0 l0.id
                (fun x => bindRecord x d n1)).devices } k = some (bindRecord l0 d n1) := by
          show ((s0.licenses.map fun x => if x.id = l0.id then bindRecord x d n1 else x).find?
            (fun x => x.key == k)) = some (bindRecord l0 d n1)
          rw [find?_key_map]
          · have hg2 : s0.licenses.find? (fun x => x.key == k) = some l0 := hg
            rw [hg2]
            simp
          · intro x
            by_cases hx : x.id = l0.id <;> simp [hx, bindRecord]
        simp only [LicenseStore.updateLicense, bindRecord] at hget1
        simp [ActivationEngine.activate, LicenseStore.updateLicense, bindRecord, hget1]

lemma applyClientOp_shape (s : Store) (op : ClientOp) :
    (applyClientOp s op).licenses = s.licenses ∨
    ∃ (tid : Nat) (f : License → License) (lw : License),
      lw ∈ s.licenses ∧ lw.id = tid ∧ lw.status ≠ Status.revoked ∧
      (∀ x, (f x).id = x.id) ∧
      (applyClientOp s op).licenses =
        s.licenses.map (fun x => if x.id = tid then f x else x) := by
  cases op with
  | act k d now =>
    cases hg : LicenseStore.get s k with
    | none => left; simp [applyClientOp, ActivationEngine.activate, hg]
    | some l =>
      cases hst : l.status with
      | revoked => left; simp [applyClientOp, ActivationEngine.activate, hg, hst]
      | active =>
        by_cases hb : l.boundDeviceHash = some d
        · left; simp [applyClientOp, ActivationEngine.activate, hg, hst, hb]
        · left; simp [applyClientOp, ActivationEngine.activate, hg, hst, hb]
      | inactive =>
        cases hfind : s.licenses.find? (fun l0 => l0.id == l.id) with
        | none =>
          left
          simp [applyClientOp, ActivationEngine.activate, hg, hst,
            LicenseStore.tryBind, hfind]
        | some lf =>
          by_cases h2 : lf.status = Status.inactive
          · right
            refine ⟨l.id, (fun x => bindRecord x d now), lf,
              List.mem_of_find?_eq_some hfind, ?_, ?_, ?_, ?_⟩
            · have hp := List.find?_some hfind
              simpa using hp
            · rw [h2]; intro hc; cases hc
            · intro x; simp [bindRecord]
            · simp [applyClientOp, ActivationEngine.activate, hg, hst,
                LicenseStore.tryBind, hfind, h2, LicenseStore.updateLicense]
          · by_cases hb2 : lf.boundDeviceHash = some d
            · left
              simp [applyClientOp, ActivationEngine.activate, hg, hst,
                LicenseStore.tryBind, hfind, h2, hb2]
            · left
              simp [applyClientOp, ActivationEngine.activate, hg, hst,
                LicenseStore.tryBind, hfind, h2, hb2]
  | deact k d now =>
    cases hg : LicenseStore.get s k with
    | none => left; simp [applyClientOp, ActivationEngine.deactivate, hg]
    | some l =>
      by_cases hcond : l.status = Status.active ∧ l.boundDeviceHash = some d
      · right
        refine ⟨l.id, (fun x => unbindRecord x now), l, get_mem hg, rfl, ?_, ?_, ?_⟩
        · rw [hcond.1]; intro hc; cases hc
        · intro x; simp [unbindRecord]
        · simp [applyClientOp, ActivationEngine.deactivate, hg, hcond,
            LicenseStore.updateLicense]
      · left
        simp [applyClientOp, ActivationEngine.deactivate, hg, hcond]

lemma run_revoked_stays (ops : List ClientOp) :
    ∀ s : Store, (s.licenses.map License.id).Nodup →
    ∀ lid, (∀ y ∈ s.licenses, y.id = lid → y.status = Status.revoked) →
    ∀ y ∈ (runClientOps s ops).licenses, y.id = lid → y.status = Status.revoked := by
  induction ops with
  | nil =>
    intro s _ lid h
    simpa [runClientOps] using h
  | cons op ops ih =>
    intro s hn lid h
    have hrun : runClientOps s (op :: ops) = runClientOps (applyClientOp s op) ops := rfl
    rw [hrun]
    rcases applyClientOp_shape s op with heq | ⟨tid, f, lw, hlw, hlwid, hlwst, hfid, heq⟩
    · refine ih (applyClientOp s op) ?_ lid ?_
      · rw [heq]; exact hn
      · intro y hy
        rw [heq] at hy
        exact h y hy
    · have hids : (applyClientOp s op).licenses.map License.id =
          s.licenses.map License.id := by
        rw [heq, List.map_map]
        apply List.map_congr_left
        intro x _
        by_cases hx : x.id = tid <;> simp [hx, hfid x]
      refine ih (applyClientOp s op) ?_ lid ?_
      · rw [hids]; exact hn
      · intro y hy hyid
        rw [heq] at hy
        rcases List.mem_map.1 hy with ⟨x, hx, rfl⟩
        by_cases hxt : x.id = tid
        · have hyx : x.id = lid := by
            rw [if_pos hxt] at hyid
            rw [← hfid x]
            exact hyid
          have hxrev : x.status = Status.revoked := h x hx hyx
          have hxlw : x = lw := List.inj_on_of_nodup_map hn hx hlw (by rw [hxt, hlwid])
          exact absurd (hxlw ▸ hxrev) hlwst
        · rw [if_neg hxt] at hyid ⊢
          exact h x hx hyid

/-- C4: revocation is terminal: every license record with the id of a revoked
license stays revoked under any sequence of activate and deactivate calls;
activate on the revoked license fails with LicenseRevokedError; revoke on it
again is an idempotent no-op; and revoke taken from a non-revoked state moves
the record to revoked with the binding cleared. -/
theorem revocation_terminal (s : Store) (l : License) (k d : String) (now : Nat)
    (hn : (s.licenses.map License.id).Nodup) (hget : LicenseStore.get s k = some l)
    (hrev : l.status = Status.revoked) :
    (∀ ops, ∀ y ∈ (runClientOps s ops).licenses, y.id = l.id →
      y.status = Status.revoked) ∧
    ActivationEngine.activate s k d now = .error LicenseError.licenseRevoked ∧
    ActivationEngine.revoke s k now = .ok (l, s) ∧
    (∀ k2 l2, LicenseStore.get s k2 = some l2 → l2.status ≠ Status.revoked →
      ActivationEngine.revoke s k2 now =
        .ok (revokeRecord l2 now,
          LicenseStore.updateLicense s l2.id (fun l0 => revokeRecord l0 now)) ∧
      (revokeRecord l2 now).boundDeviceHash = none ∧
      (revokeRecord l2 now).status = Status.revoked) := by
  refine ⟨?_, ?_, ?_, ?_⟩
  · intro ops
    refine run_revoked_stays ops s hn l.id ?_
    intro y hy hyid
    have : y = l := List.inj_on_of_nodup_map hn hy (get_mem hget) hyid
    rw [this]
    exact hrev
  · simp [ActivationEngine.activate, hget, hrev]
  · simp [ActivationEngine.revoke, hget, hrev]
  · intro k2 l2 hg2 hst2
    refine ⟨?_, rfl, rfl⟩
    cases hs2 : l2.status with
    | revoked => exact absurd hs2 hst2
    | active => simp [ActivationEngine.revoke, hg2, hs2, revokeRecord]
    | inactive => simp [ActivationEngine.revoke, hg2, hs2, revokeRecord]

/-- Witness for C4 at a concrete revoked store. -/
theorem revocation_terminal_witness :
    ((sampleRevokedStore.licenses.map License.id).Nodup ∧
      LicenseStore.get sampleRevokedStore "AAAA-BBBB-CCCC-DDDD" =
        some sampleRevokedLicense ∧
      sampleRevokedLicense.status = Status.revoked) ∧
    ActivationEngine.activate sampleRevokedStore "AAAA-BBBB-CCCC-DDDD" "d9" 4 =
      .error LicenseError.licenseRevoked ∧
    ActivationEngine.revoke sampleRevokedStore "AAAA-BBBB-CCCC-DDDD" 4 =
      .ok (sampleRevokedLicense, sampleRevokedStore) :=
  ⟨⟨by decide, rfl, rfl⟩,
    (revocation_terminal sampleRevokedStore sampleRevokedLicense
      "AAAA-BBBB-CCCC-DDDD" "d9" 4 (by decide) rfl rfl).2.1,
    (revocation_terminal sampleRevokedStore sampleRevokedLicense
      "AAAA-BBBB-CCCC-DDDD" "d9" 4 (by decide) rfl rfl).2.2.1⟩

/-- Witness for C3 at a concrete store with the bound device reactivating. -/
theorem activate_idempotent_witness :
    LicenseStore.get sampleActiveStore "AAAA-BBBB-CCCC-DDDD" = some sampleActiveLicense ∧
    ActivationEngine.activate sampleActiveStore "AAAA-BBBB-CCCC-DDDD" "d1" 3 =
      .ok (sampleActiveLicense, sampleActiveStore) :=
  ⟨rfl, (activate_idempotent sampleActiveStore "AAAA-BBBB-CCCC-DDDD" "d1" 3
    sampleActiveLicense rfl rfl rfl).1⟩

namespace ConcurrentActivation

lemma raceInv_init (n : Nat) (d : Fin n → String) : RaceInv d (initState n) :=
  Or.inl ⟨rfl, rfl, fun _ => Or.inl rfl⟩

lemma raceInv_step {n : Nat} {d : Fin n → String} (hinj : Function.Injective d)
    {c : CState n} (h : RaceInv d c) (i : Fin n) : RaceInv d (activateStep d c i) := by
  rcases h with ⟨hs, hb, hp⟩ | ⟨w, hs, hb, hpw, hothers⟩
  · rcases hp i with hpi | hpi
    · have hstep : activateStep d c i =
          { c with phase := Function.update c.phase i Phase.pending } := by
        simp [activateStep, hpi, hs]
      rw [hstep]
      left
      refine ⟨hs, hb, ?_⟩
      intro j
      by_cases hj : j = i
      · subst hj
        right
        simp
      · simpa [Function.update_noteq hj] using hp j
    · have hstep : activateStep d c i =
          { status := Status.active, bound := some (d i),
            phase := Function.update c.phase i Phase.ok } := by
        simp [activateStep, hpi, hs]
      rw [hstep]
      right
      refine ⟨i, rfl, rfl, by simp, ?_⟩
      intro j hj
      have hupd : Function.update c.phase i Phase.ok j = c.phase j :=
        Function.update_noteq hj _ _
      show Function.update c.phase i Phase.ok j = Phase.start ∨
        Function.update c.phase i Phase.ok j = Phase.pending ∨
        Function.update c.phase i Phase.ok j = Phase.err LicenseError.licenseAlreadyActive
      rw [hupd]
      rcases hp j with h0 | h0
      · exact Or.inl h0
      · exact Or.inr (Or.inl h0)
  · by_cases hiw : i = w
    · subst hiw
      have hstep : activateStep d c i = c := by simp [activateStep, hpw]
      rw [hstep]
      exact Or.inr ⟨i, hs, hb, hpw, hothers⟩
    · have hbne : ¬ c.bound = some (d i) := by
        rw [hb]
        intro hc
        have hdd : d w = d i := Option.some.inj hc
        exact hiw (hinj hdd).symm
      have hkeep : ∀ c2 : CState n,
          c2.status = c.status → c2.bound = c.bound →
          c2.phase = Function.update c.phase i (Phase.err LicenseError.licenseAlreadyActive) →
          RaceInv d c2 := by
        intro c2 h2s h2b h2p
        right
        refine ⟨w, by rw [h2s]; exact hs, by rw [h2b]; exact hb, ?_, ?_⟩
        · rw [h2p, Function.update_noteq (Ne.symm hiw)]
          exact hpw
        · intro j hj
          rw [h2p]
          by_cases hji : j = i
          · subst hji
            right; right
            simp
          · rw [Function.update_noteq hji]
            exact hothers j hj
      rcases hothers i hiw with hpi | hpi | hpi
      · have hstep : activateStep d c i =
            { c with phase :=
              Function.update c.phase i (Phase.err LicenseError.licenseAlreadyActive) } := by
          simp [activateStep, hpi, hs, hbne]
        rw [hstep]
        exact hkeep _ rfl rfl rfl
      · have hsne : ¬ c.status = Status.inactive := by
          rw [hs]
          intro hc
          cases hc
        have hstep : activateStep d c i =
            { c with phase :=
              Function.update c.phase i (Phase.err LicenseError.licenseAlreadyActive) } := by
          simp [activateStep, hpi, hsne, hbne]
        rw [hstep]
        exact hkeep _ rfl rfl rfl
      · have hstep : activateStep d c i = c := by simp [activateStep, hpi]
        rw [hstep]
        exact Or.inr ⟨w, hs, hb, hpw, hothers⟩

lemma raceInv_run {n : Nat} {d : Fin n → String} (hinj : Function.Injective d)
    (sched : List (Fin n)) :
    ∀ c : CState n, RaceInv d c → RaceInv d (runSched d c sched) := by
  induction sched with
  | nil =>
    intro c h
    simpa [runSched] using h
  | cons i sched ih =>
    intro c h
    have hr : runSched d c (i :: sched) = runSched d (activateStep d c i) sched := rfl
    rw [hr]
    exact ih _ (raceInv_step hinj h i)

/-- C1: in every complete interleaving of N greater or equal 2 concurrent
activate calls with pairwise-distinct device hashes on one inactive license,
exactly one caller succeeds, the license ends active and bound to the
winner's hash, and every other caller fails with LicenseAlreadyActiveError;
and the linearization point tryBind is a compare-and-set that transitions
inactive to active only when the current status still equals expectedStatus
and otherwise fails without side effects, returning the current record. -/
theorem activation_race_single_winner (n : Nat) (hn : 2 ≤ n) (d : Fin n → String)
    (hinj : Function.Injective d) (sched : List (Fin n))
    (hdone : ∀ j, Phase.done ((runSched d (initState n) sched).phase j) = true) :
    (∃ i, (runSched d (initState n) sched).status = Status.active ∧
      (runSched d (initState n) sched).bound = some (d i) ∧
      (runSched d (initState n) sched).phase i = Phase.ok ∧
      ∀ j, j ≠ i → (runSched d (initState n) sched).phase j =
        Phase.err LicenseError.licenseAlreadyActive) ∧
    (∀ (s : Store) (lid : Nat) (dh : String) (now : Nat) (lf : License),
      s.licenses.find? (fun l0 => l0.id == lid) = some lf →
      (lf.status = Status.inactive →
        LicenseStore.tryBind s lid dh Status.inactive now =
          some (true, bindRecord lf dh now,
            LicenseStore.updateLicense s lid (fun l0 => bindRecord l0 dh now))) ∧
      (lf.status ≠ Status.inactive →
        LicenseStore.tryBind s lid dh Status.inactive now = some (false, lf, s))) := by
  constructor
  · have hI := raceInv_run hinj sched (initState n) (raceInv_init n d)
    rcases hI with ⟨hs, hb, hp⟩ | ⟨i, hs, hb, hpi, hothers⟩
    · exfalso
      have hlt : 0 < n := by omega
      rcases hp ⟨0, hlt⟩ with h1 | h1
      · have hd := hdone ⟨0, hlt⟩
        rw [h1] at hd
        simp [Phase.done] at hd
      · have hd := hdone ⟨0, hlt⟩
        rw [h1] at hd
        simp [Phase.done] at hd
    · refine ⟨i, hs, hb, hpi, ?_⟩
      intro j hj
      rcases hothers j hj with h1 | h1 | h1
      · exfalso
        have hd := hdone j
        rw [h1] at hd
        simp [Phase.done] at hd
      · exfalso
        have hd := hdone j
        rw [h1] at hd
        simp [Phase.done] at hd
      · exact h1
  · intro s lid dh now lf hfind
    constructor
    · intro hst
      simp [LicenseStore.tryBind, hfind, hst]
    · intro hst
      simp [LicenseStore.tryBind, hfind, hst]

/-- Witness for C1: the interleaving in which both of two callers read the
inactive license before either binds; caller 0 wins, caller 1 loses. -/
theorem activation_race_single_winner_witness :
    ∃ i : Fin 2,
      (runSched samplePairHashes (initState 2) samplePairSched).status = Status.active ∧
      (runSched samplePairHashes (initState 2) samplePairSched).bound =
        some (samplePairHashes i) ∧
      (runSched samplePairHashes (initState 2) samplePairSched).phase i = Phase.ok ∧
      ∀ j, j ≠ i → (runSched samplePairHashes (initState 2) samplePairSched).phase j =
        Phase.err LicenseError.licenseAlreadyActive :=
  (activation_race_single_winner 2 (by decide) samplePairHashes
    (by
      intro a b hab
      fin_cases a <;> fin_cases b <;> simp_all [samplePairHashes])
    samplePairSched (by decide)).1

end ConcurrentActivation

end LicenseCore

namespace AdminUI

/-- C9: on the detail page, a confirmed successful revoke changes only the
displayed status (to revoked) and clears the displayed device; id, key,
created_at and updated_at are untouched and the error message is unchanged.
A confirmed failed revoke leaves the displayed license untouched and only
sets the error message. -/
theorem handleRevoke_frame (s : DetailState) (lic : License)
    (hlic : s.license = some lic) :
    (∃ lic2, (handleRevoke s true true).license = some lic2 ∧
      lic2.status = UiStatus.revoked ∧ lic2.device = none ∧
      lic2.id = lic.id ∧ lic2.key = lic.key ∧
      lic2.created_at = lic.created_at ∧ lic2.updated_at = lic.updated_at) ∧
    (handleRevoke s true true).error = s.error ∧
    (handleRevoke s true false).license = s.license ∧
    (handleRevoke s true false).error = some "Failed to revoke license" := by
  refine ⟨⟨{ lic with status := UiStatus.revoked, device := none }, ?_, rfl, rfl,
    rfl, rfl, rfl, rfl⟩, ?_, ?_, ?_⟩
  · simp [handleRevoke, hlic]
  · simp [handleRevoke, hlic]
  · simp [handleRevoke, hlic]
  · simp [handleRevoke, hlic]

/-- Witness for C9 at a concrete page state. -/
theorem handleRevoke_frame_witness :
    (∃ lic2, (handleRevoke sampleUiState true true).license = some lic2 ∧
      lic2.status = UiStatus.revoked ∧ lic2.device = none ∧
      lic2.id = sampleUiLicense.id ∧ lic2.key = sampleUiLicense.key ∧
      lic2.created_at = sampleUiLicense.created_at ∧
      lic2.updated_at = sampleUiLicense.updated_at) ∧
    (handleRevoke sampleUiState true true).error = sampleUiState.error ∧
    (handleRevoke sampleUiState true false).license = sampleUiState.license ∧
    (handleRevoke sampleUiState true false).error = some "Failed to revoke license" :=
  handleRevoke_frame sampleUiState sampleUiLicense rfl

/-- C10: the detail page renders the Revoke License control exactly when the
displayed status is not revoked, so the page never offers a revoke request
for a license it already shows as revoked. -/
theorem rendersRevokeControl_iff (lic : License) (s : DetailState) :
    (rendersRevokeControl lic = true ↔ lic.status ≠ UiStatus.revoked) ∧
    (s.license = some lic → lic.status = UiStatus.revoked →
      pageCanRevoke s = false) := by
  constructor
  · simp [rendersRevokeControl]
  · intro hlic hst
    simp [pageCanRevoke, hlic, rendersRevokeControl, hst]

/-- Witness for C10 at a concrete revoked page state. -/
theorem rendersRevokeControl_iff_witness :
    (rendersRevokeControl sampleUiRevoked = true ↔
      sampleUiRevoked.status ≠ UiStatus.revoked) ∧
    (sampleUiRevokedState.license = some sampleUiRevoked →
      sampleUiRevoked.status = UiStatus.revoked →
      pageCanRevoke sampleUiRevokedState = false) :=
  rendersRevokeControl_iff sampleUiRevoked sampleUiRevokedState

end AdminUI
